import Mathlib

/-!
Verification development for `prompt-scrape/scrape.py` of GPT4ALL-collector.

The relevant program state is embedded shallowly:

* A per-prompt environment (`PromptEnv`) records what the external world does
  for that prompt: what the call `model(prompt)` (line 51) does, and what the
  attempt `writer.write(json_data)` (line 55) does.  Either may raise a Python
  exception, abstracted as `PyExc`.
* `runPrompts` is the loop of `Scraper.get_responses` (lines 50-59): the API
  call stands before the `try` block, the `except (KeyboardInterrupt,
  ValueError, IndexError)` handler appends the bare prompt to
  `output_path + "_fails.jsonl"` (line 58) and continues; any other exception
  propagates and ends the shard.
* Appends to the stores are modelled as an ordered trace of `AppendEvent`s,
  each carrying the file path written to.
* `get_responses` adds the slicing `all_prompts[i : i + shard_size]` (line 44)
  and the `OpenAIChat` construction (lines 45-48) with its hardcoded
  `model_kwargs={"max_tokens": -1}`.
* `collector` (lines 61-80) dispatches one unit of work per start index of
  `range(0, len(all_prompts), shard_size)` (embedded as `pyRange`), sets the
  progress total to `len(all_prompts) // shard_size` (line 70), and drains
  the completed futures in an arbitrary completion order `ord`.  The
  `except Exception` handler on line 77 catches only `Exception`-derived
  errors (logging them and letting the per-future progress bump on line 80
  run); a `KeyboardInterrupt` re-raised by `future.result()` derives only
  from `BaseException`, so it escapes the drain loop: nothing more is
  logged or counted and `collector` itself raises.
* `mainRun` is the `__main__` block (lines 82-107): the credential is
  `args.openai_api_key or os.environ.get("OPENAI_API_KEY")` (line 91, with
  Python string truthiness), and `collector` is invoked unconditionally with
  shard size 200 and source `""`.
-/

namespace Scrape

/-- A Python exception, as far as the handler on line 56 can distinguish them:
`KeyboardInterrupt`, `ValueError`, `IndexError` are named in the `except`
clause; every other exception class is abstracted by its name. -/
inductive PyExc where
  | keyboardInterrupt
  | valueError
  | indexError
  | otherError (name : String)
deriving DecidableEq, Repr

/-- Whether an exception is caught by
`except (KeyboardInterrupt, ValueError, IndexError)` on line 56. -/
def recognizedExc : PyExc → Bool
  | .keyboardInterrupt => true
  | .valueError => true
  | .indexError => true
  | .otherError _ => false

/-- Whether the exception's class derives from Python's `Exception` — what
`except Exception as e` on line 77 catches.  `KeyboardInterrupt` derives
only from `BaseException`, so it is not caught there; `ValueError`,
`IndexError` and the other error classes the program's operations raise
(abstracted by `otherError`) all derive from `Exception`. -/
def isExceptionSubclass : PyExc → Bool
  | .keyboardInterrupt => false
  | .valueError => true
  | .indexError => true
  | .otherError _ => true

/-- Outcome of the external call `model(prompt)` on line 51: it either returns
a text, or raises. -/
inductive CallResult where
  | returns (text : String)
  | raises (e : PyExc)
deriving DecidableEq, Repr

/-- The environment's behaviour for one prompt: what the API call does, and
what the attempt to write the result record does (`none` = the write
succeeds, `some e` = the write raises `e`). -/
structure PromptEnv where
  apiCall : CallResult
  writeCall : Option PyExc
deriving DecidableEq, Repr

/-- One input record: a dict with a `prompt` key (lines 97-101). -/
structure PromptRecord where
  prompt : String
deriving DecidableEq, Repr

/-- Model settings dict, e.g. `{"max_tokens": -1}`. -/
abbrev ModelSettings := List (String × Int)

/-- The dict built on line 54:
`{"prompt": prompt, "response": output, "model_settings": model_settings, "source": source}`. -/
structure ResultRecord where
  prompt : String
  response : String
  model_settings : ModelSettings
  source : String
deriving DecidableEq, Repr

/-- A datum appended to a jsonlines store: either a result record (line 55)
or a bare prompt string written to the failure store (line 59). -/
inductive Entry where
  | res (r : ResultRecord)
  | fail (p : String)
deriving DecidableEq, Repr

/-- One append to a store: the path of the file opened in mode `"a"`, and the
record written. -/
structure AppendEvent where
  path : String
  entry : Entry
deriving DecidableEq, Repr

/-- The failure-store path built on line 58: `output_path + "_fails.jsonl"`. -/
def failStorePath (output_path : String) : String :=
  output_path ++ "_fails.jsonl"

/-- The loop of `get_responses` (lines 50-59).  For each prompt: run
`output = model(prompt)`; if it raises, the exception propagates (the call is
outside the `try`) and the remaining prompts are dropped.  Otherwise attempt
`writer.write(json_data)`: on success the result record is appended to
`output_path`; if the write raises a recognized exception the bare prompt is
appended to the failure store and the loop continues; any other exception
propagates.  Returns the trace of appends and the propagated exception, if
any. -/
def runPrompts (env : String → PromptEnv) (model_settings : ModelSettings)
    (output_path source : String) : List String → List AppendEvent × Option PyExc
  | [] => ([], none)
  | p :: rest =>
    match (env p).apiCall with
    | .raises e => ([], some e)
    | .returns output =>
      match (env p).writeCall with
      | none =>
        let r := runPrompts env model_settings output_path source rest
        (⟨output_path, .res ⟨p, output, model_settings, source⟩⟩ :: r.1, r.2)
      | some e =>
        if recognizedExc e then
          let r := runPrompts env model_settings output_path source rest
          (⟨failStorePath output_path, .fail p⟩ :: r.1, r.2)
        else ([], some e)

/-- The `OpenAIChat(...)` value constructed on lines 45-48. -/
structure OpenAIChatModel where
  model_name : String
  openai_api_key : Option String
  model_kwargs : ModelSettings
deriving DecidableEq, Repr

/-- Result of one unit of work (`get_responses`): the model it constructed,
the appends it performed, and the exception it raised, if any. -/
structure ShardRun where
  model : OpenAIChatModel
  events : List AppendEvent
  fatal : Option PyExc
deriving DecidableEq, Repr

instance : Inhabited ShardRun :=
  ⟨⟨⟨"gpt-3.5-turbo", none, [("max_tokens", -1)]⟩, [], none⟩⟩

/-- `Scraper.get_responses` (lines 20-59).  `pick` stands for the index drawn
by `random.randint(0, len(self.openai_api_keys) - 1)` on line 47; the slicing
on line 44 is `all_prompts[i : i + shard_size]` followed by extraction of the
`prompt` field. -/
def get_responses (openai_api_keys : List (Option String)) (pick : Nat)
    (all_prompts : List PromptRecord) (i shard_size : Nat)
    (model_settings : ModelSettings) (output_path source : String)
    (env : String → PromptEnv) : ShardRun :=
  let prompts := ((all_prompts.drop i).take shard_size).map (·.prompt)
  let model : OpenAIChatModel :=
    { model_name := "gpt-3.5-turbo"
      openai_api_key := openai_api_keys.getD pick none
      model_kwargs := [("max_tokens", -1)] }
  let r := runPrompts env model_settings output_path source prompts
  { model := model, events := r.1, fatal := r.2 }

/-- Worker for `pyRange`, structurally recursive on a fuel argument so that
it evaluates by kernel reduction.  The fuel `stop - start` always suffices:
each iteration consumes at least one unit of the gap. -/
def pyRangeAux (stop step : Nat) : Nat → Nat → List Nat
  | _start, 0 => []
  | start, fuel + 1 =>
    if 0 < step ∧ start < stop then
      start :: pyRangeAux stop step (start + step) fuel
    else []

/-- Python `range(start, stop, step)` for a non-negative step, as used on
line 72 (`range(0, len(all_prompts), shard_size)`).  Empty when `step = 0`
(Python raises there; no execution of the program reaches that case). -/
def pyRange (start stop step : Nat) : List Nat :=
  pyRangeAux stop step start (stop - start)

/-- Outcome of the drain loop of lines 74-80. -/
structure DrainResult where
  progressCount : Nat
  logs : List PyExc
  raised : Option PyExc
deriving DecidableEq, Repr

/-- The drain loop of lines 74-80, over the futures in completion order.
For each future, `future.result()` re-raises the exception its unit raised,
if any.  `except Exception as e` (line 77) catches exactly the
`Exception`-derived ones: they are logged and `progress.update(1)`
(line 80) still runs.  An exception that does not derive from `Exception`
(a `KeyboardInterrupt` escaping the unit via line 51) is not caught: it
propagates out of the `for` loop, so it is never logged, the progress
counter is not bumped for that future or any later one, and `collector`
itself raises (the `raised` field). -/
def drainFutures (futures : List ShardRun) : List Nat → DrainResult
  | [] => ⟨0, [], none⟩
  | k :: rest =>
    match futures.get? k with
    | none => drainFutures futures rest
    | some f =>
      match f.fatal with
      | none =>
        let r := drainFutures futures rest
        ⟨r.progressCount + 1, r.logs, r.raised⟩
      | some e =>
        if isExceptionSubclass e then
          let r := drainFutures futures rest
          ⟨r.progressCount + 1, e :: r.logs, r.raised⟩
        else ⟨0, [], some e⟩

/-- Observable outcome of `Scraper.collector` (lines 61-80).  `raised` is
the exception that escaped the drain loop uncaught, if any. -/
structure CollectorResult where
  progressTotal : Nat
  futures : List ShardRun
  progressCount : Nat
  logs : List PyExc
  raised : Option PyExc
deriving Repr

/-- `Scraper.collector` (lines 61-80).  One future is submitted per start
index in `range(0, len(all_prompts), shard_size)` (line 72); `get_responses`
is called without `model_settings`, so its default `{"max_tokens": -1}`
applies.  The progress bar total is `len(all_prompts) // shard_size`
(line 70).  `ord` gives the completion order in which `as_completed` yields
the futures; the drain loop (`drainFutures`) logs the `Exception`-derived
error of each collected future and bumps the progress counter once per
collected future, but aborts uncaught on a non-`Exception` fatal
(lines 74-80).  `pick` gives each unit's random key index, per start
index. -/
def collector (openai_api_keys : List (Option String)) (pick : Nat → Nat)
    (all_prompts : List PromptRecord) (shard_size : Nat)
    (output_path source : String) (env : String → PromptEnv)
    (ord : List Nat) : CollectorResult :=
  let starts := pyRange 0 all_prompts.length shard_size
  let futures := starts.map (fun i =>
    get_responses openai_api_keys (pick i) all_prompts i shard_size
      [("max_tokens", -1)] output_path source env)
  let drained := drainFutures futures ord
  { progressTotal := all_prompts.length / shard_size
    futures := futures
    progressCount := drained.progressCount
    logs := drained.logs
    raised := drained.raised }

/-- Line 91: `args.openai_api_key or os.environ.get("OPENAI_API_KEY")`.
Python `or` falls through on a falsy left operand (`None` or the empty
string). -/
def mainResolveKey (flagKey envKey : Option String) : Option String :=
  match flagKey with
  | some s => if s = "" then envKey else some s
  | none => envKey

/-- What the `__main__` block produces: the key list the `Scraper` is
constructed with (line 94) and the result of the `collector` call
(lines 104-107). -/
structure MainRun where
  openai_api_keys : List (Option String)
  result : CollectorResult

/-- The `__main__` block (lines 82-107): resolve the credential, build
`Scraper([key])`, and call `collector` with the input prompts, the default
shard size 200 and the default source `""`.  No credential check is
performed anywhere on this path. -/
def mainRun (flagKey envKey : Option String) (input : List PromptRecord)
    (output_file : String) (pick : Nat → Nat) (env : String → PromptEnv)
    (ord : List Nat) : MainRun :=
  let key := mainResolveKey flagKey envKey
  { openai_api_keys := [key]
    result := collector [key] pick input 200 output_file "" env ord }

/-- Modelled from the spec: the failure-store path "derived from the output
path by appending a fixed `_fails` suffix before the store's extension"
(spec §6); the program itself derives the path differently, on line 58.
The suffix `_fails` is inserted immediately before the final extension of
the output path (before the last `.`); a path without a dot gets the suffix
appended. -/
def specFailStorePath (path : String) : String :=
  let cs := path.toList
  if cs.contains '.' then
    let revc := cs.reverse
    let extRev := revc.takeWhile (fun c => c ≠ '.')
    let stemRev := revc.drop (extRev.length + 1)
    String.mk (stemRev.reverse ++ "_fails".toList ++ '.' :: extRev.reverse)
  else
    path ++ "_fails"

/-- `ev` is a result record for prompt `p`. -/
def isResultFor (p : String) (ev : AppendEvent) : Bool :=
  match ev.entry with
  | .res r => r.prompt == p
  | .fail _ => false

/-- `ev` is a failure record (a bare prompt) for prompt `p`. -/
def isFailureFor (p : String) (ev : AppendEvent) : Bool :=
  match ev.entry with
  | .res _ => false
  | .fail q => q == p

/-- Processing prompt `q` does not raise out of the loop body: the API call
returns, and the record write either succeeds or raises an exception the
handler on line 56 recognizes. -/
def nonAborting (env : String → PromptEnv) (q : String) : Bool :=
  match (env q).apiCall with
  | .raises _ => false
  | .returns _ =>
    match (env q).writeCall with
    | none => true
    | some e => recognizedExc e

/-- Replace the `model_settings` field of a result-record append; failure
appends are untouched. -/
def setMS (ms : ModelSettings) (ev : AppendEvent) : AppendEvent :=
  { path := ev.path
    entry :=
      match ev.entry with
      | .res r => .res { r with model_settings := ms }
      | .fail p => .fail p }

/-- The prompt of a result-record append, `none` for a failure append. -/
def resPromptOf (ev : AppendEvent) : Option String :=
  match ev.entry with
  | .res r => some r.prompt
  | .fail _ => none

/-- The `model_settings` field of a result-record append, `none` for a
failure append. -/
def msOf (ev : AppendEvent) : Option ModelSettings :=
  match ev.entry with
  | .res r => some r.model_settings
  | .fail _ => none

/-- The set of input indices covered by each dispatched unit of work: the
unit submitted for start index `i` processes `all_prompts[i : i + shard_size]`
(lines 44 and 72), hence covers the index slice
`(List.range N).drop i |>.take shard_size`. -/
def dispatchIndexShards (N shard_size : Nat) : List (List Nat) :=
  (pyRange 0 N shard_size).map (fun i => ((List.range N).drop i).take shard_size)

section Lemmas

/-- Any fuel of at least `stop - start` yields the same range. -/
lemma pyRangeAux_fuel (stop step : Nat) :
    ∀ fuel₁ fuel₂ start, stop - start ≤ fuel₁ → stop - start ≤ fuel₂ →
      pyRangeAux stop step start fuel₁ = pyRangeAux stop step start fuel₂ := by
  intro fuel₁
  induction fuel₁ with
  | zero =>
    intro fuel₂ start h₁ h₂
    cases fuel₂ with
    | zero => rfl
    | succ g =>
      show [] = if 0 < step ∧ start < stop then _ else []
      rw [if_neg (by omega)]
  | succ f ih =>
    intro fuel₂ start h₁ h₂
    cases fuel₂ with
    | zero =>
      show (if 0 < step ∧ start < stop then _ else []) = []
      rw [if_neg (by omega)]
    | succ g =>
      show (if 0 < step ∧ start < stop then
          start :: pyRangeAux stop step (start + step) f else []) =
        if 0 < step ∧ start < stop then
          start :: pyRangeAux stop step (start + step) g else []
      by_cases h : 0 < step ∧ start < stop
      · rw [if_pos h, if_pos h, ih g (start + step) (by omega) (by omega)]
      · rw [if_neg h, if_neg h]

/-- The recursive unfolding of `pyRange`. -/
lemma pyRange_eq (start stop step : Nat) :
    pyRange start stop step =
      if 0 < step ∧ start < stop then
        start :: pyRange (start + step) stop step
      else [] := by
  by_cases h : 0 < step ∧ start < stop
  · obtain ⟨m, hm⟩ : ∃ m, stop - start = m + 1 := ⟨stop - start - 1, by omega⟩
    rw [if_pos h]
    show pyRangeAux stop step start (stop - start) = _
    rw [hm]
    show (if 0 < step ∧ start < stop then
        start :: pyRangeAux stop step (start + step) m else []) = _
    rw [if_pos h]
    have hfl := pyRangeAux_fuel stop step m (stop - (start + step)) (start + step)
      (by omega) (by omega)
    rw [hfl]
    rfl
  · rw [if_neg h]
    show pyRangeAux stop step start (stop - start) = []
    cases hf : stop - start with
    | zero => rfl
    | succ m =>
      show (if 0 < step ∧ start < stop then _ else []) = []
      rw [if_neg h]

/-- Induction along the recursion of `pyRange`. -/
lemma pyRange_induct (motive : Nat → Nat → Nat → Prop)
    (ind : ∀ start stop step, (0 < step ∧ start < stop) →
      motive (start + step) stop step → motive start stop step)
    (base : ∀ start stop step, ¬(0 < step ∧ start < stop) →
      motive start stop step)
    (start stop step : Nat) : motive start stop step := by
  have H : ∀ gap start, stop - start ≤ gap → motive start stop step := by
    intro gap
    induction gap with
    | zero =>
      intro start hle
      exact base _ _ _ (by omega)
    | succ g ih =>
      intro start hle
      by_cases h : 0 < step ∧ start < stop
      · exact ind _ _ _ h (ih (start + step) (by omega))
      · exact base _ _ _ h
  exact H (stop - start) start (le_refl _)

/-- `pyRange start stop step` has `⌈(stop - start) / step⌉` elements. -/
lemma pyRange_length :
    ∀ start stop step : Nat, 0 < step →
      (pyRange start stop step).length = (stop - start + step - 1) / step := by
  intro start stop step
  induction start, stop, step using pyRange_induct with
  | ind start stop step h ih =>
    intro hs
    rw [pyRange_eq, if_pos h]
    simp only [List.length_cons, ih hs]
    have hstep : 0 < step := h.1
    have ha : 0 < stop - start := by omega
    have hrhs : stop - start + step - 1 = (stop - start - 1) + step := by omega
    rw [hrhs, Nat.add_div_right _ hstep]
    by_cases hb : stop - (start + step) = 0
    · rw [hb]
      rw [Nat.div_eq_of_lt (by omega), Nat.div_eq_of_lt (by omega)]
    · have hlhs : stop - (start + step) + step - 1 = (stop - (start + step) - 1) + step := by
        omega
      rw [hlhs, Nat.add_div_right _ hstep]
      have : stop - start - 1 = (stop - (start + step) - 1) + step := by omega
      rw [this, Nat.add_div_right _ hstep]
  | base start stop step h =>
    intro hs
    rw [pyRange_eq, if_neg h]
    have : stop ≤ start := by omega
    rw [Nat.div_eq_of_lt (by omega)]
    rfl

/-- The `k`-th start index produced by `range(start, stop, step)` is
`start + k * step`. -/
lemma pyRange_getD :
    ∀ start stop step : Nat, ∀ k : Nat, k < (pyRange start stop step).length →
      (pyRange start stop step).getD k 0 = start + k * step := by
  intro start stop step
  induction start, stop, step using pyRange_induct with
  | ind start stop step h ih =>
    intro k hk
    rw [pyRange_eq, if_pos h] at hk ⊢
    match k with
    | 0 => simp
    | k + 1 =>
      simp only [List.getD_cons_succ]
      rw [ih k (by simpa using hk)]
      ring
  | base start stop step h =>
    intro k hk
    rw [pyRange_eq, if_neg h] at hk
    simp at hk

/-- Concatenating the slices `l[i : i + S]`, `l[i + S : i + 2 * S]`, … gives
back `l[i:]`. -/
lemma slice_flatten {α : Type} (l : List α) :
    ∀ start stop step : Nat, 0 < step → stop = l.length →
      (((pyRange start stop step).map fun j => (l.drop j).take step).flatten) =
        l.drop start := by
  intro start stop step
  induction start, stop, step using pyRange_induct with
  | ind start stop step h ih =>
    intro hS hstop
    rw [pyRange_eq, if_pos h]
    simp only [List.map_cons, List.flatten_cons]
    rw [ih hS hstop, ← List.drop_drop]
    exact List.take_append_drop _ _
  | base start stop step h =>
    intro hS hstop
    rw [pyRange_eq, if_neg h]
    simp only [List.map_nil, List.flatten_nil]
    symm
    apply List.drop_eq_nil_of_le
    omega

/-- The slice `range(N)[i : i + S]` is the interval `[i, min (i + S) N)`. -/
lemma range_slice (N i S : Nat) :
    ((List.range N).drop i).take S = List.range' i (min (i + S) N - i) := by
  apply List.ext_getElem
  · simp only [List.length_take, List.length_drop, List.length_range,
      List.length_range', inf_eq_min]
    omega
  · intro n h₁ h₂
    rw [List.getElem_take, List.getElem_drop, List.getElem_range, List.getElem_range']
    omega

/-- If no prompt of `l₁` raises out of the loop body, running `l₁ ++ l₂` is
running `l₁` and then `l₂`: the traces concatenate and the propagated
exception is that of `l₂`. -/
lemma runPrompts_append (env : String → PromptEnv) (ms : ModelSettings)
    (op src : String) (l₁ l₂ : List String)
    (h : ∀ q ∈ l₁, nonAborting env q = true) :
    runPrompts env ms op src (l₁ ++ l₂) =
      ((runPrompts env ms op src l₁).1 ++ (runPrompts env ms op src l₂).1,
       (runPrompts env ms op src l₂).2) := by
  induction l₁ with
  | nil => simp [runPrompts]
  | cons p rest ih =>
    have hp : nonAborting env p = true := h p (by simp)
    have hrest : ∀ q ∈ rest, nonAborting env q = true := fun q hq => h q (by simp [hq])
    unfold nonAborting at hp
    simp only [List.cons_append, runPrompts]
    cases hapi : (env p).apiCall with
    | raises e => rw [hapi] at hp; simp at hp
    | returns t =>
      rw [hapi] at hp
      cases hw : (env p).writeCall with
      | none => simp [hw, ih hrest]
      | some e =>
        rw [hw] at hp
        simp only [] at hp
        simp [hw, hp, ih hrest]

/-- A prompt that is not in the list gets no result record and no failure
record from running the list. -/
lemma runPrompts_filter_not_mem (env : String → PromptEnv) (ms : ModelSettings)
    (op src p : String) (l : List String) (hp : p ∉ l) :
    (runPrompts env ms op src l).1.filter (isResultFor p) = [] ∧
      (runPrompts env ms op src l).1.filter (isFailureFor p) = [] := by
  induction l with
  | nil => simp [runPrompts]
  | cons q rest ih =>
    have hqp : q ≠ p := fun hqp => hp (by simp [hqp])
    have hrest := ih (fun hm => hp (by simp [hm]))
    simp only [runPrompts]
    cases hapi : (env q).apiCall with
    | raises e => simp
    | returns t =>
      cases hw : (env q).writeCall with
      | none =>
        simp only [List.filter_cons]
        have h1 : isResultFor p ⟨op, .res ⟨q, t, ms, src⟩⟩ = false := by
          simp [isResultFor, hqp]
        have h2 : isFailureFor p ⟨op, .res ⟨q, t, ms, src⟩⟩ = false := by
          simp [isFailureFor]
        simp [h1, h2, hrest]
      | some e =>
        by_cases hrec : recognizedExc e = true
        · simp only [hrec, if_true, List.filter_cons]
          have h1 : isResultFor p ⟨failStorePath op, .fail q⟩ = false := by
            simp [isResultFor]
          have h2 : isFailureFor p ⟨failStorePath op, .fail q⟩ = false := by
            simp [isFailureFor, hqp]
          simp [h1, h2, hrest]
        · simp [hrec]

/-- The trace and the propagated exception of a shard depend only on the
environment's behaviour at the shard's own prompts. -/
lemma runPrompts_env_congr (env₁ env₂ : String → PromptEnv) (ms : ModelSettings)
    (op src : String) (l : List String) (h : ∀ q ∈ l, env₁ q = env₂ q) :
    runPrompts env₁ ms op src l = runPrompts env₂ ms op src l := by
  induction l with
  | nil => simp [runPrompts]
  | cons q rest ih =>
    have hq : env₁ q = env₂ q := h q (by simp)
    have hrest := ih (fun r hr => h r (by simp [hr]))
    simp only [runPrompts, hq, hrest]

/-- Changing the `model_settings` argument only changes the
`model_settings` field copied into each result record: the set of prompts
answered, the failure records, the paths written to and the propagated
exception are unchanged. -/
lemma runPrompts_setMS (env : String → PromptEnv) (ms₁ ms₂ : ModelSettings)
    (op src : String) (l : List String) :
    (runPrompts env ms₂ op src l).1 = (runPrompts env ms₁ op src l).1.map (setMS ms₂) ∧
      (runPrompts env ms₂ op src l).2 = (runPrompts env ms₁ op src l).2 := by
  induction l with
  | nil => simp [runPrompts]
  | cons q rest ih =>
    simp only [runPrompts]
    cases hapi : (env q).apiCall with
    | raises e => simp
    | returns t =>
      cases hw : (env q).writeCall with
      | none => simp [setMS, ih.1, ih.2]
      | some e =>
        by_cases hrec : recognizedExc e = true
        · simp [hrec, setMS, ih.1, ih.2]
        · simp [hrec]

/-- The prompts of the result records appended by a shard form an
order-preserving subsequence of the shard's prompts. -/
lemma runPrompts_result_prompts_sublist (env : String → PromptEnv)
    (ms : ModelSettings) (op src : String) (l : List String) :
    ((runPrompts env ms op src l).1.filterMap resPromptOf).Sublist l := by
  induction l with
  | nil => simp [runPrompts]
  | cons q rest ih =>
    simp only [runPrompts]
    cases hapi : (env q).apiCall with
    | raises e => simp
    | returns t =>
      cases hw : (env q).writeCall with
      | none =>
        simp only [List.filterMap_cons]
        have : resPromptOf ⟨op, .res ⟨q, t, ms, src⟩⟩ = some q := rfl
        rw [this]
        exact ih.cons₂ q
      | some e =>
        by_cases hrec : recognizedExc e = true
        · simp only [hrec, if_true, List.filterMap_cons]
          have : resPromptOf ⟨failStorePath op, .fail q⟩ = none := rfl
          rw [this]
          exact ih.cons q
        · simp [hrec]

/-- Every result record appended by a shard carries the `model_settings`
argument verbatim. -/
lemma runPrompts_msOf_replicate (env : String → PromptEnv) (ms : ModelSettings)
    (op src : String) (l : List String) :
    (runPrompts env ms op src l).1.filterMap msOf =
      List.replicate ((runPrompts env ms op src l).1.filterMap msOf).length ms := by
  induction l with
  | nil => simp [runPrompts]
  | cons q rest ih =>
    simp only [runPrompts]
    cases hapi : (env q).apiCall with
    | raises e => simp
    | returns t =>
      cases hw : (env q).writeCall with
      | none =>
        simp only [List.filterMap_cons]
        have : msOf ⟨op, .res ⟨q, t, ms, src⟩⟩ = some ms := rfl
        rw [this]
        simp only [List.length_cons, List.replicate_succ]
        rw [← ih]
      | some e =>
        by_cases hrec : recognizedExc e = true
        · simp only [hrec, if_true, List.filterMap_cons]
          have : msOf ⟨failStorePath op, .fail q⟩ = none := rfl
          rw [this]
          exact ih
        · simp [hrec]

/-- The result of a unit of work depends on the environment only through its
behaviour at the unit's own prompt texts. -/
lemma get_responses_env_congr (keys : List (Option String)) (pick : Nat)
    (all_prompts : List PromptRecord) (i S : Nat) (ms : ModelSettings)
    (op src : String) (env₁ env₂ : String → PromptEnv)
    (h : ∀ q ∈ ((all_prompts.drop i).take S).map (·.prompt), env₁ q = env₂ q) :
    get_responses keys pick all_prompts i S ms op src env₁ =
      get_responses keys pick all_prompts i S ms op src env₂ := by
  simp only [get_responses]
  rw [runPrompts_env_congr env₁ env₂ ms op src _ h]

/-- `get?` at an in-range index is `some` of the defaulted lookup. -/
lemma get?_eq_some_getD {α : Type} [Inhabited α] (l : List α) (k : Nat)
    (hk : k < l.length) : l.get? k = some (l.getD k default) := by
  rw [List.get?_eq_get hk, List.getD_eq_getElem?_getD,
    List.getElem?_eq_getElem hk]
  rfl

/-- If every drained index is in range and every fatal among the drained
futures derives from `Exception`, the drain loop collects everything: one
progress bump per drained future, and nothing escapes it. -/
lemma drainFutures_complete (futures : List ShardRun) :
    ∀ ord : List Nat, (∀ k ∈ ord, k < futures.length) →
      (∀ k ∈ ord, ∀ e, (futures.getD k default).fatal = some e →
        isExceptionSubclass e = true) →
      (drainFutures futures ord).progressCount = ord.length ∧
        (drainFutures futures ord).raised = none := by
  intro ord
  induction ord with
  | nil =>
    intro _ _
    exact ⟨rfl, rfl⟩
  | cons k rest ih =>
    intro hlt hexc
    have hk : k < futures.length := hlt k (by simp)
    have hrest1 : ∀ j ∈ rest, j < futures.length := fun j hj => hlt j (by simp [hj])
    have hrest2 : ∀ j ∈ rest, ∀ e, (futures.getD j default).fatal = some e →
        isExceptionSubclass e = true := fun j hj => hexc j (by simp [hj])
    have hget := get?_eq_some_getD futures k hk
    simp only [drainFutures, hget]
    cases hf : (futures.getD k default).fatal with
    | none =>
      simp only [List.length_cons, (ih hrest1 hrest2).1, (ih hrest1 hrest2).2]
      exact ⟨trivial, trivial⟩
    | some e =>
      have he : isExceptionSubclass e = true := hexc k (by simp) e hf
      simp only [he, if_true, List.length_cons,
        (ih hrest1 hrest2).1, (ih hrest1 hrest2).2]
      exact ⟨trivial, trivial⟩

/-- Under the same conditions, the exception of every drained future that
raised is collected in the log. -/
lemma drainFutures_mem_logs (futures : List ShardRun) :
    ∀ ord : List Nat, (∀ k ∈ ord, k < futures.length) →
      (∀ k ∈ ord, ∀ e, (futures.getD k default).fatal = some e →
        isExceptionSubclass e = true) →
      ∀ j ∈ ord, ∀ e, (futures.getD j default).fatal = some e →
        e ∈ (drainFutures futures ord).logs := by
  intro ord
  induction ord with
  | nil =>
    intro _ _ j hj
    simp at hj
  | cons k rest ih =>
    intro hlt hexc j hj e he
    have hk : k < futures.length := hlt k (by simp)
    have hrest1 : ∀ x ∈ rest, x < futures.length := fun x hx => hlt x (by simp [hx])
    have hrest2 : ∀ x ∈ rest, ∀ e', (futures.getD x default).fatal = some e' →
        isExceptionSubclass e' = true := fun x hx => hexc x (by simp [hx])
    have hget := get?_eq_some_getD futures k hk
    simp only [drainFutures, hget]
    rcases List.mem_cons.mp hj with rfl | hjrest
    · rw [he]
      have hexck : isExceptionSubclass e = true := hexc j (by simp) e he
      simp only [hexck, if_true]
      exact List.mem_cons_self _ _
    · cases hf : (futures.getD k default).fatal with
      | none => exact ih hrest1 hrest2 j hjrest e he
      | some e' =>
        have hexck : isExceptionSubclass e' = true := hexc k (by simp) e' hf
        simp only [hexck, if_true]
        exact List.mem_cons_of_mem _ (ih hrest1 hrest2 j hjrest e he)

/-- The `k`-th submitted future is the unit of work for start index `k * S`. -/
lemma collector_futures_getD (keys : List (Option String)) (pick : Nat → Nat)
    (all_prompts : List PromptRecord) (S : Nat) (op src : String)
    (env : String → PromptEnv) (ord : List Nat) (k : Nat)
    (hk : k < (pyRange 0 all_prompts.length S).length) :
    (collector keys pick all_prompts S op src env ord).futures.getD k default =
      get_responses keys (pick (k * S)) all_prompts (k * S) S
        [("max_tokens", -1)] op src env := by
  have hstart : (pyRange 0 all_prompts.length S).getD k 0 = k * S := by
    rw [pyRange_getD 0 all_prompts.length S k hk]
    omega
  rw [List.getD_eq_getElem?_getD, List.getElem?_eq_getElem hk,
    Option.getD_some] at hstart
  simp only [collector]
  rw [List.getD_eq_getElem?_getD,
    List.getElem?_eq_getElem (by simpa using hk),
    Option.getD_some, List.getElem_map, hstart]

end Lemmas

section Claims

/-- C1 (amended): a recognized failure is handled per-prompt only when it is
raised while constructing/writing the result record, after the API call has
returned: then exactly one failure record — the bare prompt — is appended to
the failure store, no result record for that prompt is appended, and
processing continues with the next prompt in the shard.  (A recognized
exception raised by the API call itself is not handled this way, because the
call on line 51 stands outside the `try` block; see the counterexample.) -/
theorem c1_recognized_write_failure_recorded
    (env : String → PromptEnv) (ms : ModelSettings) (op src : String)
    (pre post : List String) (p t : String) (e : PyExc)
    (hpre : ∀ q ∈ pre, nonAborting env q = true)
    (hapi : (env p).apiCall = .returns t)
    (hw : (env p).writeCall = some e)
    (hrec : recognizedExc e = true)
    (hp1 : p ∉ pre) (hp2 : p ∉ post) :
    (runPrompts env ms op src (pre ++ p :: post)).1.filter (isFailureFor p)
        = [⟨failStorePath op, .fail p⟩] ∧
    (runPrompts env ms op src (pre ++ p :: post)).1.filter (isResultFor p) = [] ∧
    (runPrompts env ms op src (pre ++ p :: post)).1
        = (runPrompts env ms op src pre).1
            ++ ⟨failStorePath op, .fail p⟩ :: (runPrompts env ms op src post).1 ∧
    (runPrompts env ms op src (pre ++ p :: post)).2
        = (runPrompts env ms op src post).2 := by
  have hstep : runPrompts env ms op src (p :: post)
      = (⟨failStorePath op, .fail p⟩ :: (runPrompts env ms op src post).1,
         (runPrompts env ms op src post).2) := by
    simp [runPrompts, hapi, hw, hrec]
  have happ := runPrompts_append env ms op src pre (p :: post) hpre
  rw [hstep] at happ
  have hpreF := runPrompts_filter_not_mem env ms op src p pre hp1
  have hpostF := runPrompts_filter_not_mem env ms op src p post hp2
  have h1 : (runPrompts env ms op src (pre ++ p :: post)).1
      = (runPrompts env ms op src pre).1
          ++ ⟨failStorePath op, .fail p⟩ :: (runPrompts env ms op src post).1 := by
    rw [happ]
  have h2 : (runPrompts env ms op src (pre ++ p :: post)).2
      = (runPrompts env ms op src post).2 := by
    rw [happ]
  refine ⟨?_, ?_, h1, h2⟩
  · rw [h1, List.filter_append, hpreF.2, List.filter_cons]
    have hf : isFailureFor p ⟨failStorePath op, .fail p⟩ = true := by
      simp [isFailureFor]
    simp [hf, hpostF.2]
  · rw [h1, List.filter_append, hpreF.1, List.filter_cons]
    have hf : isResultFor p ⟨failStorePath op, .fail p⟩ = false := by
      simp [isResultFor]
    simp [hf, hpostF.1]

/-- C1 counterexample: `ValueError` is in the recognized set named by the
`except` clause, and a malformed/empty API response surfaces as an exception
of the call `model(prompt)` on line 51 — which stands outside the `try`
block.  For the one-prompt shard `["x"]` whose API call raises `ValueError`,
the failure store gains nothing (the claim demands one failure record `"x"`)
and the shard aborts instead of continuing. -/
theorem c1_cex_recognized_api_failure_unrecorded :
    recognizedExc .valueError = true ∧
    (runPrompts (fun _ => ⟨.raises .valueError, none⟩) [("max_tokens", -1)]
        "out.jsonl" "" ["x"]).1 = [] ∧
    (runPrompts (fun _ => ⟨.raises .valueError, none⟩) [("max_tokens", -1)]
        "out.jsonl" "" ["x"]).2 = some .valueError := by
  exact ⟨rfl, rfl, rfl⟩

/-- Witness for C1 (amended) at a concrete shard `["x", "y"]` where the
write for `"x"` raises `KeyboardInterrupt`. -/
theorem c1_witness :
    (runPrompts
        (fun q => if q = "x" then (⟨.returns "r", some .keyboardInterrupt⟩ : PromptEnv)
          else ⟨.returns "ok", none⟩)
        [("max_tokens", -1)] "out.jsonl" "" ["x", "y"]).1.filter (isFailureFor "x")
        = [⟨failStorePath "out.jsonl", .fail "x"⟩] ∧
    (runPrompts
        (fun q => if q = "x" then (⟨.returns "r", some .keyboardInterrupt⟩ : PromptEnv)
          else ⟨.returns "ok", none⟩)
        [("max_tokens", -1)] "out.jsonl" "" ["x", "y"]).1.filter (isResultFor "x") = [] ∧
    (runPrompts
        (fun q => if q = "x" then (⟨.returns "r", some .keyboardInterrupt⟩ : PromptEnv)
          else ⟨.returns "ok", none⟩)
        [("max_tokens", -1)] "out.jsonl" "" ["x", "y"]).1
        = (runPrompts
            (fun q => if q = "x" then (⟨.returns "r", some .keyboardInterrupt⟩ : PromptEnv)
              else ⟨.returns "ok", none⟩)
            [("max_tokens", -1)] "out.jsonl" "" []).1
          ++ ⟨failStorePath "out.jsonl", .fail "x"⟩ ::
            (runPrompts
              (fun q => if q = "x" then (⟨.returns "r", some .keyboardInterrupt⟩ : PromptEnv)
                else ⟨.returns "ok", none⟩)
              [("max_tokens", -1)] "out.jsonl" "" ["y"]).1 ∧
    (runPrompts
        (fun q => if q = "x" then (⟨.returns "r", some .keyboardInterrupt⟩ : PromptEnv)
          else ⟨.returns "ok", none⟩)
        [("max_tokens", -1)] "out.jsonl" "" ["x", "y"]).2
        = (runPrompts
            (fun q => if q = "x" then (⟨.returns "r", some .keyboardInterrupt⟩ : PromptEnv)
              else ⟨.returns "ok", none⟩)
            [("max_tokens", -1)] "out.jsonl" "" ["y"]).2 :=
  c1_recognized_write_failure_recorded
    (fun q => if q = "x" then (⟨.returns "r", some .keyboardInterrupt⟩ : PromptEnv)
      else ⟨.returns "ok", none⟩)
    [("max_tokens", -1)] "out.jsonl" "" [] ["y"] "x" "r" .keyboardInterrupt
    (by decide) (by decide) (by decide) (by decide) (by decide) (by decide)

/-- C2: for input length `N` and positive shard size `S`, the dispatcher
submits exactly `⌈N / S⌉` units of work; the unit for shard `k` covers the
index interval `[k * S, min ((k + 1) * S) N)`; the covered index slices are
pairwise disjoint and their concatenation is exactly `[0, N)`. -/
theorem c2_dispatch_partitions_input (keys : List (Option String))
    (pick : Nat → Nat) (all_prompts : List PromptRecord) (S : Nat)
    (op src : String) (env : String → PromptEnv) (ord : List Nat)
    (hS : 0 < S) :
    (collector keys pick all_prompts S op src env ord).futures.length
        = (all_prompts.length + S - 1) / S ∧
    (∀ k, k < (all_prompts.length + S - 1) / S →
      (dispatchIndexShards all_prompts.length S).getD k []
        = List.range' (k * S) (min ((k + 1) * S) all_prompts.length - k * S)) ∧
    (dispatchIndexShards all_prompts.length S).flatten
        = List.range all_prompts.length ∧
    List.Pairwise List.Disjoint (dispatchIndexShards all_prompts.length S) := by
  have hlen : (pyRange 0 all_prompts.length S).length
      = (all_prompts.length + S - 1) / S := by
    rw [pyRange_length 0 all_prompts.length S hS, Nat.sub_zero]
  have hflat : (dispatchIndexShards all_prompts.length S).flatten
      = List.range all_prompts.length := by
    unfold dispatchIndexShards
    have hsl := slice_flatten (List.range all_prompts.length) 0
      all_prompts.length S hS (List.length_range _).symm
    simpa using hsl
  have hnodup : (dispatchIndexShards all_prompts.length S).flatten.Nodup := by
    rw [hflat]
    exact List.nodup_range _
  refine ⟨?_, ?_, hflat, (List.nodup_flatten.mp hnodup).2⟩
  · simp only [collector, List.length_map, hlen]
  · intro k hk
    have hk' : k < (pyRange 0 all_prompts.length S).length := by
      rw [hlen]
      exact hk
    have hstart : (pyRange 0 all_prompts.length S).getD k 0 = k * S := by
      rw [pyRange_getD 0 all_prompts.length S k hk']
      omega
    rw [List.getD_eq_getElem?_getD, List.getElem?_eq_getElem hk',
      Option.getD_some] at hstart
    unfold dispatchIndexShards
    rw [List.getD_eq_getElem?_getD,
      List.getElem?_eq_getElem (by rw [List.length_map]; exact hk'),
      Option.getD_some, List.getElem_map, hstart, range_slice]
    have hks : (k + 1) * S = k * S + S := by ring
    rw [hks]

/-- Witness for C2 with five prompts and shard size 2 (three shards:
`[0,1]`, `[2,3]`, `[4]`). -/
theorem c2_witness :
    (collector [some "k"] (fun _ => 0)
        [⟨"a"⟩, ⟨"b"⟩, ⟨"c"⟩, ⟨"d"⟩, ⟨"e"⟩] 2 "o" ""
        (fun _ => ⟨.returns "r", none⟩) []).futures.length = (5 + 2 - 1) / 2 ∧
    (∀ k, k < (5 + 2 - 1) / 2 →
      (dispatchIndexShards 5 2).getD k []
        = List.range' (k * 2) (min ((k + 1) * 2) 5 - k * 2)) ∧
    (dispatchIndexShards 5 2).flatten = List.range 5 ∧
    List.Pairwise List.Disjoint (dispatchIndexShards 5 2) :=
  c2_dispatch_partitions_input [some "k"] (fun _ => 0)
    [⟨"a"⟩, ⟨"b"⟩, ⟨"c"⟩, ⟨"d"⟩, ⟨"e"⟩] 2 "o" ""
    (fun _ => ⟨.returns "r", none⟩) [] (by decide)

/-- C3 counterexample: with no credential from the flag and none from the
environment (here the external world rejects every API call with an
authentication error), the `__main__` flow still builds `Scraper([None])`
and dispatches one unit of work for a one-prompt input: the run does not
halt before dispatch, contrary to the claim. -/
theorem c3_cex_no_credential_still_dispatches :
    (mainRun none none [⟨"a"⟩] "out.jsonl" (fun _ => 0)
        (fun _ => ⟨.raises (.otherError "AuthenticationError"), none⟩)
        []).openai_api_keys = [none] ∧
    (mainRun none none [⟨"a"⟩] "out.jsonl" (fun _ => 0)
        (fun _ => ⟨.raises (.otherError "AuthenticationError"), none⟩)
        []).result.futures.length = 1 ∧
    ¬ (mainRun none none [⟨"a"⟩] "out.jsonl" (fun _ => 0)
        (fun _ => ⟨.raises (.otherError "AuthenticationError"), none⟩)
        []).result.futures.length = 0 := by
  decide

/-- C3 (amended): if no credential is supplied via the command-line flag and
none is present in the environment, the credential resolves to `None`, the
scraper is built with key list `[None]`, and the run does **not** halt: it
still dispatches `⌈N / 200⌉` units of work.  No pre-dispatch credential
check exists on the `__main__` path. -/
theorem c3_no_credential_key_none_still_dispatches (input : List PromptRecord)
    (output_file : String) (pick : Nat → Nat) (env : String → PromptEnv)
    (ord : List Nat) :
    (mainRun none none input output_file pick env ord).openai_api_keys
        = [none] ∧
    (mainRun none none input output_file pick env ord).result.futures.length
        = (input.length + 200 - 1) / 200 := by
  constructor
  · rfl
  · simp only [mainRun, mainResolveKey, collector, List.length_map]
    rw [pyRange_length 0 input.length 200 (by omega), Nat.sub_zero]

/-- C4 counterexample: for output path `"out.jsonl"` the program writes its
failure record to `"out.jsonl_fails.jsonl"` (line 58 appends the suffix
after the whole path), whereas inserting the `_fails` suffix before the
store's extension — what the claim states — yields `"out_fails.jsonl"`. -/
theorem c4_cex_fail_path_not_before_extension :
    (runPrompts (fun _ => ⟨.returns "r", some .valueError⟩) [("max_tokens", -1)]
        "out.jsonl" "" ["x"]).1
        = [⟨"out.jsonl_fails.jsonl", .fail "x"⟩] ∧
    specFailStorePath "out.jsonl" = "out_fails.jsonl" ∧
    failStorePath "out.jsonl" ≠ specFailStorePath "out.jsonl" := by
  decide

/-- C4 (amended): every failure record a shard writes goes to the store at
`output_path ++ "_fails.jsonl"`: the fixed suffix is appended after the
entire output path (extension included), not inserted before the
extension. -/
theorem c4_fail_path_appends_suffix (env : String → PromptEnv)
    (ms : ModelSettings) (op src : String) (l : List String) :
    ∀ ev ∈ (runPrompts env ms op src l).1, (∃ q, ev.entry = .fail q) →
      ev.path = op ++ "_fails.jsonl" := by
  induction l with
  | nil => simp [runPrompts]
  | cons q rest ih =>
    simp only [runPrompts]
    cases hapi : (env q).apiCall with
    | raises e => simp
    | returns t =>
      cases hw : (env q).writeCall with
      | none =>
        intro ev hev hfail
        simp only [List.mem_cons] at hev
        rcases hev with rfl | hev
        · rcases hfail with ⟨q', hq'⟩
          cases hq'
        · exact ih ev hev hfail
      | some e =>
        by_cases hrec : recognizedExc e = true
        · simp only [hrec, if_true]
          intro ev hev hfail
          simp only [List.mem_cons] at hev
          rcases hev with rfl | hev
          · rfl
          · exact ih ev hev hfail
        · simp [hrec]

/-- Witness for C4 (amended): the failure record of the run on shard `["x"]`
with output path `"out.jsonl"` sits at `"out.jsonl" ++ "_fails.jsonl"`. -/
theorem c4_witness :
    (⟨"out.jsonl_fails.jsonl", .fail "x"⟩ : AppendEvent).path
        = "out.jsonl" ++ "_fails.jsonl" :=
  c4_fail_path_appends_suffix (fun _ => ⟨.returns "r", some .valueError⟩)
    [("max_tokens", -1)] "out.jsonl" "" ["x"]
    ⟨"out.jsonl_fails.jsonl", .fail "x"⟩ (by decide) ⟨"x", rfl⟩

/-- C5 counterexample: the unit for shard `["c"]` raises `KeyboardInterrupt`
(reachable via the uncovered API call on line 51).  `future.result()`
re-raises it and `except Exception` on line 77 does not catch it —
`KeyboardInterrupt` derives only from `BaseException` — so the drain loop
aborts: the error is never logged and the progress counter stops at 1 of 2,
refuting "the dispatcher logs the error, continues collecting, and returns
only after every submitted unit has completed successfully or with a logged
error". -/
theorem c5_cex_keyboard_interrupt_aborts_drain :
    (collector [some "k"] (fun _ => 0) [⟨"a"⟩, ⟨"b"⟩, ⟨"c"⟩] 2 "o" ""
        (fun q => if q = "c" then (⟨.raises .keyboardInterrupt, none⟩ : PromptEnv)
          else ⟨.returns "r", none⟩) [0, 1]).futures.length = 2 ∧
    ((collector [some "k"] (fun _ => 0) [⟨"a"⟩, ⟨"b"⟩, ⟨"c"⟩] 2 "o" ""
        (fun q => if q = "c" then (⟨.raises .keyboardInterrupt, none⟩ : PromptEnv)
          else ⟨.returns "r", none⟩) [0, 1]).futures.getD 1 default).fatal
        = some .keyboardInterrupt ∧
    (collector [some "k"] (fun _ => 0) [⟨"a"⟩, ⟨"b"⟩, ⟨"c"⟩] 2 "o" ""
        (fun q => if q = "c" then (⟨.raises .keyboardInterrupt, none⟩ : PromptEnv)
          else ⟨.returns "r", none⟩) [0, 1]).logs = [] ∧
    (collector [some "k"] (fun _ => 0) [⟨"a"⟩, ⟨"b"⟩, ⟨"c"⟩] 2 "o" ""
        (fun q => if q = "c" then (⟨.raises .keyboardInterrupt, none⟩ : PromptEnv)
          else ⟨.returns "r", none⟩) [0, 1]).progressCount = 1 ∧
    (collector [some "k"] (fun _ => 0) [⟨"a"⟩, ⟨"b"⟩, ⟨"c"⟩] 2 "o" ""
        (fun q => if q = "c" then (⟨.raises .keyboardInterrupt, none⟩ : PromptEnv)
          else ⟨.returns "r", none⟩) [0, 1]).raised = some .keyboardInterrupt ∧
    ¬ (collector [some "k"] (fun _ => 0) [⟨"a"⟩, ⟨"b"⟩, ⟨"c"⟩] 2 "o" ""
        (fun q => if q = "c" then (⟨.raises .keyboardInterrupt, none⟩ : PromptEnv)
          else ⟨.returns "r", none⟩) [0, 1]).progressCount
        = (collector [some "k"] (fun _ => 0) [⟨"a"⟩, ⟨"b"⟩, ⟨"c"⟩] 2 "o" ""
            (fun q => if q = "c" then (⟨.raises .keyboardInterrupt, none⟩ : PromptEnv)
              else ⟨.returns "r", none⟩) [0, 1]).futures.length := by
  decide

/-- C5 (amended): a unit of work whose raised error derives from `Exception`
does not prevent any other unit from being collected: provided every error
raised by a drained unit derives from `Exception` (what `except Exception`
on line 77 catches), the drain loop bumps the progress counter once per
submitted unit — finishing only after every unit was collected — nothing
escapes it, and every raised error is logged.  Independently of any such
hypothesis, a unit's own appended records depend only on the environment's
behaviour at its own shard's prompts, so another shard's outcome never
changes them.  A unit-level `KeyboardInterrupt`, by contrast, escapes the
drain loop uncaught: it is not logged and stops the counting (see the
counterexample). -/
theorem c5_shard_fault_isolation (keys : List (Option String))
    (pick : Nat → Nat) (all_prompts : List PromptRecord) (S : Nat)
    (op src : String) (env₁ env₂ : String → PromptEnv) (ord : List Nat)
    (k : Nat)
    (hord : ord.Perm (List.range ((pyRange 0 all_prompts.length S).length)))
    (hk : k < (pyRange 0 all_prompts.length S).length)
    (hagree : ∀ q ∈ ((all_prompts.drop (k * S)).take S).map (·.prompt),
      env₁ q = env₂ q)
    (hexc : ∀ j ∈ ord,
      (((collector keys pick all_prompts S op src env₁ ord).futures.getD
        j default).fatal.all isExceptionSubclass) = true) :
    (collector keys pick all_prompts S op src env₁ ord).progressCount
        = (collector keys pick all_prompts S op src env₁ ord).futures.length ∧
    (collector keys pick all_prompts S op src env₁ ord).raised = none ∧
    (∀ j e,
      j < (collector keys pick all_prompts S op src env₁ ord).futures.length →
      ((collector keys pick all_prompts S op src env₁ ord).futures.getD
          j default).fatal = some e →
      e ∈ (collector keys pick all_prompts S op src env₁ ord).logs) ∧
    (collector keys pick all_prompts S op src env₁ ord).futures.getD k default
        = (collector keys pick all_prompts S op src env₂ ord).futures.getD
            k default := by
  simp only [collector] at hexc
  have hordlt : ∀ x ∈ ord,
      x < ((pyRange 0 all_prompts.length S).map (fun i =>
        get_responses keys (pick i) all_prompts i S [("max_tokens", -1)]
          op src env₁)).length := by
    intro x hx
    rw [List.length_map]
    exact List.mem_range.mp (hord.mem_iff.mp hx)
  have hexc' : ∀ x ∈ ord, ∀ e,
      (((pyRange 0 all_prompts.length S).map (fun i =>
        get_responses keys (pick i) all_prompts i S [("max_tokens", -1)]
          op src env₁)).getD x default).fatal = some e →
      isExceptionSubclass e = true := by
    intro x hx e he
    have h := hexc x hx
    rw [he] at h
    simpa using h
  have hcomp := drainFutures_complete _ ord hordlt hexc'
  refine ⟨?_, ?_, ?_, ?_⟩
  · simp only [collector]
    rw [hcomp.1, hord.length_eq, List.length_range, List.length_map]
  · simp only [collector]
    exact hcomp.2
  · intro j e hj he
    simp only [collector] at hj he ⊢
    rw [List.length_map] at hj
    exact drainFutures_mem_logs _ ord hordlt hexc' j
      (hord.mem_iff.mpr (List.mem_range.mpr hj)) e he
  · rw [collector_futures_getD keys pick all_prompts S op src env₁ ord k hk,
      collector_futures_getD keys pick all_prompts S op src env₂ ord k hk]
    exact get_responses_env_congr keys (pick (k * S)) all_prompts (k * S) S
      [("max_tokens", -1)] op src env₁ env₂ hagree

/-- Witness for C5 (amended) with three prompts, shard size 2, completion
order `[1, 0]`, and a second environment in which the other shard (`["c"]`)
raises an unrecognized `Exception`-derived error. -/
theorem c5_witness :
    (collector [some "k"] (fun _ => 0) [⟨"a"⟩, ⟨"b"⟩, ⟨"c"⟩] 2 "o" ""
        (fun _ => ⟨.returns "r", none⟩) [1, 0]).progressCount
        = (collector [some "k"] (fun _ => 0) [⟨"a"⟩, ⟨"b"⟩, ⟨"c"⟩] 2 "o" ""
            (fun _ => ⟨.returns "r", none⟩) [1, 0]).futures.length ∧
    (collector [some "k"] (fun _ => 0) [⟨"a"⟩, ⟨"b"⟩, ⟨"c"⟩] 2 "o" ""
        (fun _ => ⟨.returns "r", none⟩) [1, 0]).raised = none ∧
    (∀ j e,
      j < (collector [some "k"] (fun _ => 0) [⟨"a"⟩, ⟨"b"⟩, ⟨"c"⟩] 2 "o" ""
          (fun _ => ⟨.returns "r", none⟩) [1, 0]).futures.length →
      ((collector [some "k"] (fun _ => 0) [⟨"a"⟩, ⟨"b"⟩, ⟨"c"⟩] 2 "o" ""
          (fun _ => ⟨.returns "r", none⟩) [1, 0]).futures.getD
          j default).fatal = some e →
      e ∈ (collector [some "k"] (fun _ => 0) [⟨"a"⟩, ⟨"b"⟩, ⟨"c"⟩] 2 "o" ""
          (fun _ => ⟨.returns "r", none⟩) [1, 0]).logs) ∧
    (collector [some "k"] (fun _ => 0) [⟨"a"⟩, ⟨"b"⟩, ⟨"c"⟩] 2 "o" ""
        (fun _ => ⟨.returns "r", none⟩) [1, 0]).futures.getD 0 default
        = (collector [some "k"] (fun _ => 0) [⟨"a"⟩, ⟨"b"⟩, ⟨"c"⟩] 2 "o" ""
            (fun q => if q = "c"
              then (⟨.raises (.otherError "boom"), none⟩ : PromptEnv)
              else ⟨.returns "r", none⟩) [1, 0]).futures.getD 0 default :=
  c5_shard_fault_isolation [some "k"] (fun _ => 0) [⟨"a"⟩, ⟨"b"⟩, ⟨"c"⟩] 2
    "o" "" (fun _ => ⟨.returns "r", none⟩)
    (fun q => if q = "c"
      then (⟨.raises (.otherError "boom"), none⟩ : PromptEnv)
      else ⟨.returns "r", none⟩)
    [1, 0] 0 (by decide) (by decide) (by decide) (by decide)

/-- C6: within a shard, a prompt whose processing raises an exception outside
the recognized set ends the shard: the run's trace is exactly the trace of
the prompts before it, the exception propagates out of the unit of work, and
no later prompt of the shard gets a result record or a failure record (nor
is it retried). -/
theorem c6_unrecognized_error_skips_rest (env : String → PromptEnv)
    (ms : ModelSettings) (op src : String) (pre post : List String)
    (p : String) (e : PyExc)
    (hpre : ∀ q ∈ pre, nonAborting env q = true)
    (habort : (env p).apiCall = .raises e ∨
      (∃ t, (env p).apiCall = .returns t ∧ (env p).writeCall = some e ∧
        recognizedExc e = false)) :
    runPrompts env ms op src (pre ++ p :: post)
        = ((runPrompts env ms op src pre).1, some e) ∧
    (∀ q ∈ p :: post, q ∉ pre →
      (runPrompts env ms op src (pre ++ p :: post)).1.filter (isResultFor q)
          = [] ∧
      (runPrompts env ms op src (pre ++ p :: post)).1.filter (isFailureFor q)
          = []) := by
  have hstep : runPrompts env ms op src (p :: post) = ([], some e) := by
    rcases habort with hapi | ⟨t, hapi, hw, hrec⟩
    · simp [runPrompts, hapi]
    · simp [runPrompts, hapi, hw, hrec]
  have happ := runPrompts_append env ms op src pre (p :: post) hpre
  rw [hstep] at happ
  have h1 : runPrompts env ms op src (pre ++ p :: post)
      = ((runPrompts env ms op src pre).1, some e) := by
    rw [happ]
    simp
  refine ⟨h1, ?_⟩
  intro q _hq hqpre
  have hf := runPrompts_filter_not_mem env ms op src q pre hqpre
  rw [h1]
  exact ⟨hf.1, hf.2⟩

/-- Witness for C6: shard `["a", "x", "y"]` where `"x"` raises an
unrecognized `TypeError` at the API call; `"y"` is silently skipped. -/
theorem c6_witness :
    runPrompts
        (fun q => if q = "x"
          then (⟨.raises (.otherError "TypeError"), none⟩ : PromptEnv)
          else ⟨.returns "r", none⟩)
        [("max_tokens", -1)] "o" "" ["a", "x", "y"]
        = ((runPrompts
            (fun q => if q = "x"
              then (⟨.raises (.otherError "TypeError"), none⟩ : PromptEnv)
              else ⟨.returns "r", none⟩)
            [("max_tokens", -1)] "o" "" ["a"]).1,
           some (.otherError "TypeError")) ∧
    (∀ q ∈ ["x", "y"], q ∉ ["a"] →
      (runPrompts
          (fun q => if q = "x"
            then (⟨.raises (.otherError "TypeError"), none⟩ : PromptEnv)
            else ⟨.returns "r", none⟩)
          [("max_tokens", -1)] "o" "" ["a", "x", "y"]).1.filter (isResultFor q)
          = [] ∧
      (runPrompts
          (fun q => if q = "x"
            then (⟨.raises (.otherError "TypeError"), none⟩ : PromptEnv)
            else ⟨.returns "r", none⟩)
          [("max_tokens", -1)] "o" "" ["a", "x", "y"]).1.filter (isFailureFor q)
          = []) :=
  c6_unrecognized_error_skips_rest
    (fun q => if q = "x"
      then (⟨.raises (.otherError "TypeError"), none⟩ : PromptEnv)
      else ⟨.returns "r", none⟩)
    [("max_tokens", -1)] "o" "" ["a"] ["y"] "x" (.otherError "TypeError")
    (by decide) (Or.inl (by decide))

/-- C7 counterexample: the API call for `"x"` returns successfully, but the
record write raises `KeyboardInterrupt` (explicit user interruption, a
recognized condition the `except` clause names), so no result record is
appended — a successful API response alone does not guarantee a
ResultRecord in the output store. -/
theorem c7_cex_successful_call_without_record :
    ((fun _ => (⟨.returns "r", some .keyboardInterrupt⟩ : PromptEnv)) "x").apiCall
        = .returns "r" ∧
    (runPrompts (fun _ => ⟨.returns "r", some .keyboardInterrupt⟩)
        [("max_tokens", -1)] "o" "s" ["x"]).1.filter (isResultFor "x") = [] ∧
    (runPrompts (fun _ => ⟨.returns "r", some .keyboardInterrupt⟩)
        [("max_tokens", -1)] "o" "s" ["x"]).1.filter (isFailureFor "x")
        = [⟨failStorePath "o", .fail "x"⟩] := by
  decide

/-- C7 (amended): for every prompt whose API call returns a successful
response and whose record write does not raise, exactly one result record
is appended to the output store, and it consists of exactly the fields
`prompt` (the original prompt text), `response`, `model_settings` and
`source`. -/
theorem c7_success_appends_exact_record (env : String → PromptEnv)
    (ms : ModelSettings) (op src : String) (pre post : List String)
    (p t : String)
    (hpre : ∀ q ∈ pre, nonAborting env q = true)
    (hapi : (env p).apiCall = .returns t)
    (hw : (env p).writeCall = none)
    (hp1 : p ∉ pre) (hp2 : p ∉ post) :
    (runPrompts env ms op src (pre ++ p :: post)).1.filter (isResultFor p)
        = [⟨op, .res ⟨p, t, ms, src⟩⟩] := by
  have hstep : runPrompts env ms op src (p :: post)
      = (⟨op, .res ⟨p, t, ms, src⟩⟩ :: (runPrompts env ms op src post).1,
         (runPrompts env ms op src post).2) := by
    simp [runPrompts, hapi, hw]
  have happ := runPrompts_append env ms op src pre (p :: post) hpre
  rw [hstep] at happ
  have hpreF := runPrompts_filter_not_mem env ms op src p pre hp1
  have hpostF := runPrompts_filter_not_mem env ms op src p post hp2
  have h1 : (runPrompts env ms op src (pre ++ p :: post)).1
      = (runPrompts env ms op src pre).1
          ++ ⟨op, .res ⟨p, t, ms, src⟩⟩ :: (runPrompts env ms op src post).1 := by
    rw [happ]
  rw [h1, List.filter_append, hpreF.1, List.filter_cons]
  have hr : isResultFor p ⟨op, .res ⟨p, t, ms, src⟩⟩ = true := by
    simp [isResultFor]
  simp [hr, hpostF.1]

/-- Witness for C7 (amended) at the shard `["x", "y"]` where both steps for
`"x"` succeed with response `"R"`. -/
theorem c7_witness :
    (runPrompts
        (fun q => if q = "x" then (⟨.returns "R", none⟩ : PromptEnv)
          else ⟨.returns "r", none⟩)
        [("max_tokens", -1)] "o" "s" ["x", "y"]).1.filter (isResultFor "x")
        = [⟨"o", .res ⟨"x", "R", [("max_tokens", -1)], "s"⟩⟩] :=
  c7_success_appends_exact_record
    (fun q => if q = "x" then (⟨.returns "R", none⟩ : PromptEnv)
      else ⟨.returns "r", none⟩)
    [("max_tokens", -1)] "o" "s" [] ["y"] "x" "R"
    (by decide) (by decide) (by decide) (by decide) (by decide)

/-- C8: within one unit of work the prompts are processed sequentially and
the result records it appends to the output store appear in the same order
as the corresponding prompts appear in the shard: the prompt projection of
its event trace is an order-preserving subsequence of the shard's
prompts. -/
theorem c8_shard_preserves_prompt_order (keys : List (Option String))
    (pick : Nat) (all_prompts : List PromptRecord) (i S : Nat)
    (ms : ModelSettings) (op src : String) (env : String → PromptEnv) :
    ((get_responses keys pick all_prompts i S ms op src env).events.filterMap
        resPromptOf).Sublist
      (((all_prompts.drop i).take S).map (·.prompt)) := by
  simp only [get_responses]
  exact runPrompts_result_prompts_sublist env ms op src _

/-- C9 counterexample: with the unit for shard `["c"]` raising
`KeyboardInterrupt` and that future drained first, the drain loop aborts at
once — the counter is never incremented although both dispatched units run
to completion — refuting "the counter is incremented exactly once per
completed shard". -/
theorem c9_cex_keyboard_interrupt_stops_counter :
    (collector [some "k"] (fun _ => 0) [⟨"a"⟩, ⟨"b"⟩, ⟨"c"⟩] 2 "o" ""
        (fun q => if q = "c" then (⟨.raises .keyboardInterrupt, none⟩ : PromptEnv)
          else ⟨.returns "r", none⟩) [1, 0]).progressTotal = 1 ∧
    (collector [some "k"] (fun _ => 0) [⟨"a"⟩, ⟨"b"⟩, ⟨"c"⟩] 2 "o" ""
        (fun q => if q = "c" then (⟨.raises .keyboardInterrupt, none⟩ : PromptEnv)
          else ⟨.returns "r", none⟩) [1, 0]).futures.length = 2 ∧
    ((collector [some "k"] (fun _ => 0) [⟨"a"⟩, ⟨"b"⟩, ⟨"c"⟩] 2 "o" ""
        (fun q => if q = "c" then (⟨.raises .keyboardInterrupt, none⟩ : PromptEnv)
          else ⟨.returns "r", none⟩) [1, 0]).futures.getD 1 default).fatal
        = some .keyboardInterrupt ∧
    (collector [some "k"] (fun _ => 0) [⟨"a"⟩, ⟨"b"⟩, ⟨"c"⟩] 2 "o" ""
        (fun q => if q = "c" then (⟨.raises .keyboardInterrupt, none⟩ : PromptEnv)
          else ⟨.returns "r", none⟩) [1, 0]).progressCount = 0 ∧
    (collector [some "k"] (fun _ => 0) [⟨"a"⟩, ⟨"b"⟩, ⟨"c"⟩] 2 "o" ""
        (fun q => if q = "c" then (⟨.raises .keyboardInterrupt, none⟩ : PromptEnv)
          else ⟨.returns "r", none⟩) [1, 0]).raised = some .keyboardInterrupt ∧
    ¬ (collector [some "k"] (fun _ => 0) [⟨"a"⟩, ⟨"b"⟩, ⟨"c"⟩] 2 "o" ""
        (fun q => if q = "c" then (⟨.raises .keyboardInterrupt, none⟩ : PromptEnv)
          else ⟨.returns "r", none⟩) [1, 0]).progressCount
        = (collector [some "k"] (fun _ => 0) [⟨"a"⟩, ⟨"b"⟩, ⟨"c"⟩] 2 "o" ""
            (fun q => if q = "c" then (⟨.raises .keyboardInterrupt, none⟩ : PromptEnv)
              else ⟨.returns "r", none⟩) [1, 0]).progressTotal + 1 ∧
    ¬ (collector [some "k"] (fun _ => 0) [⟨"a"⟩, ⟨"b"⟩, ⟨"c"⟩] 2 "o" ""
        (fun q => if q = "c" then (⟨.raises .keyboardInterrupt, none⟩ : PromptEnv)
          else ⟨.returns "r", none⟩) [1, 0]).progressCount
        = (collector [some "k"] (fun _ => 0) [⟨"a"⟩, ⟨"b"⟩, ⟨"c"⟩] 2 "o" ""
            (fun q => if q = "c" then (⟨.raises .keyboardInterrupt, none⟩ : PromptEnv)
              else ⟨.returns "r", none⟩) [1, 0]).futures.length := by
  decide

/-- C9 (amended): the progress bar total is `N // S` (floor division,
line 70), which is strictly less than the number of dispatched units
`⌈N / S⌉` whenever `S` does not divide `N` and `N > 0`; and the counter is
bumped exactly once per completed unit — hence reaches the number of
dispatched units — provided every error raised by a drained unit derives
from `Exception`.  (A unit-level `KeyboardInterrupt` instead aborts the
drain uncounted, leaving the counter even further below the number of
dispatched units; see the counterexample.) -/
theorem c9_progress_total_undercounts (keys : List (Option String))
    (pick : Nat → Nat) (all_prompts : List PromptRecord) (S : Nat)
    (op src : String) (env : String → PromptEnv) (ord : List Nat)
    (hS : 0 < S) (hndvd : ¬ S ∣ all_prompts.length)
    (_hpos : 0 < all_prompts.length)
    (hord : ord.Perm (List.range ((pyRange 0 all_prompts.length S).length)))
    (hexc : ∀ j ∈ ord,
      (((collector keys pick all_prompts S op src env ord).futures.getD
        j default).fatal.all isExceptionSubclass) = true) :
    (collector keys pick all_prompts S op src env ord).progressTotal
        = all_prompts.length / S ∧
    (collector keys pick all_prompts S op src env ord).progressTotal
        < (collector keys pick all_prompts S op src env ord).futures.length ∧
    (collector keys pick all_prompts S op src env ord).progressCount
        = (collector keys pick all_prompts S op src env ord).futures.length := by
  have hfl : (collector keys pick all_prompts S op src env ord).futures.length
      = (all_prompts.length + S - 1) / S := by
    simp only [collector, List.length_map]
    rw [pyRange_length 0 all_prompts.length S hS, Nat.sub_zero]
  have hpt : (collector keys pick all_prompts S op src env ord).progressTotal
      = all_prompts.length / S := rfl
  refine ⟨hpt, ?_, ?_⟩
  · rw [hpt, hfl]
    have hmod : S * (all_prompts.length / S) + all_prompts.length % S
        = all_prompts.length := Nat.div_add_mod _ _
    have hrpos : 0 < all_prompts.length % S :=
      Nat.pos_of_ne_zero (fun h0 => hndvd (Nat.dvd_of_mod_eq_zero h0))
    have hrlt : all_prompts.length % S < S := Nat.mod_lt _ hS
    have hle : all_prompts.length / S + 1 ≤ (all_prompts.length + S - 1) / S := by
      rw [Nat.le_div_iff_mul_le hS]
      have hexp : (all_prompts.length / S + 1) * S
          = S * (all_prompts.length / S) + S := by ring
      rw [hexp]
      omega
    omega
  · simp only [collector] at hexc ⊢
    have hordlt : ∀ x ∈ ord,
        x < ((pyRange 0 all_prompts.length S).map (fun i =>
          get_responses keys (pick i) all_prompts i S [("max_tokens", -1)]
            op src env)).length := by
      intro x hx
      rw [List.length_map]
      exact List.mem_range.mp (hord.mem_iff.mp hx)
    have hexc' : ∀ x ∈ ord, ∀ e,
        (((pyRange 0 all_prompts.length S).map (fun i =>
          get_responses keys (pick i) all_prompts i S [("max_tokens", -1)]
            op src env)).getD x default).fatal = some e →
        isExceptionSubclass e = true := by
      intro x hx e he
      have h := hexc x hx
      rw [he] at h
      simpa using h
    rw [(drainFutures_complete _ ord hordlt hexc').1, hord.length_eq,
      List.length_range, List.length_map]

/-- Witness for C9 (amended) with three prompts and shard size 2, no unit
raising: the progress total is 1 while 2 units are dispatched and
collected. -/
theorem c9_witness :
    (collector [some "k"] (fun _ => 0) [⟨"a"⟩, ⟨"b"⟩, ⟨"c"⟩] 2 "o" ""
        (fun _ => ⟨.returns "r", none⟩) [0, 1]).progressTotal
        = [(⟨"a"⟩ : PromptRecord), ⟨"b"⟩, ⟨"c"⟩].length / 2 ∧
    (collector [some "k"] (fun _ => 0) [⟨"a"⟩, ⟨"b"⟩, ⟨"c"⟩] 2 "o" ""
        (fun _ => ⟨.returns "r", none⟩) [0, 1]).progressTotal
        < (collector [some "k"] (fun _ => 0) [⟨"a"⟩, ⟨"b"⟩, ⟨"c"⟩] 2 "o" ""
            (fun _ => ⟨.returns "r", none⟩) [0, 1]).futures.length ∧
    (collector [some "k"] (fun _ => 0) [⟨"a"⟩, ⟨"b"⟩, ⟨"c"⟩] 2 "o" ""
        (fun _ => ⟨.returns "r", none⟩) [0, 1]).progressCount
        = (collector [some "k"] (fun _ => 0) [⟨"a"⟩, ⟨"b"⟩, ⟨"c"⟩] 2 "o" ""
            (fun _ => ⟨.returns "r", none⟩) [0, 1]).futures.length :=
  c9_progress_total_undercounts [some "k"] (fun _ => 0) [⟨"a"⟩, ⟨"b"⟩, ⟨"c"⟩]
    2 "o" "" (fun _ => ⟨.returns "r", none⟩) [0, 1]
    (by decide) (by decide) (by decide) (by decide) (by decide)

/-- C10: the completion model is constructed with the hardcoded generation
parameters `{"max_tokens": -1}` (line 48) regardless of the
`model_settings` argument; `model_settings` is copied verbatim into every
result record but influences nothing else: two runs differing only in
`model_settings` construct the same model, append the same events up to
that copied field, and propagate the same exception. -/
theorem c10_model_settings_only_copied (keys : List (Option String))
    (pick : Nat) (all_prompts : List PromptRecord) (i S : Nat)
    (ms₁ ms₂ : ModelSettings) (op src : String) (env : String → PromptEnv) :
    (get_responses keys pick all_prompts i S ms₁ op src env).model
        = (get_responses keys pick all_prompts i S ms₂ op src env).model ∧
    (get_responses keys pick all_prompts i S ms₁ op src env).model.model_kwargs
        = [("max_tokens", -1)] ∧
    (get_responses keys pick all_prompts i S ms₂ op src env).events
        = (get_responses keys pick all_prompts i S ms₁ op src env).events.map
            (setMS ms₂) ∧
    (get_responses keys pick all_prompts i S ms₁ op src env).events.filterMap
          msOf
        = List.replicate
            ((get_responses keys pick all_prompts i S ms₁ op src
              env).events.filterMap msOf).length ms₁ ∧
    (get_responses keys pick all_prompts i S ms₂ op src env).fatal
        = (get_responses keys pick all_prompts i S ms₁ op src env).fatal := by
  refine ⟨rfl, rfl, ?_, ?_, ?_⟩
  · simp only [get_responses]
    exact (runPrompts_setMS env ms₁ ms₂ op src _).1
  · simp only [get_responses]
    exact runPrompts_msOf_replicate env ms₁ op src _
  · simp only [get_responses]
    exact (runPrompts_setMS env ms₁ ms₂ op src _).2

end Claims

end Scrape
